import Mathlib

/-! Formal model of the annanagrams entity-component core (`src/main.ts`):
    the `World` registry with its type-keyed component tables, the query
    algebra (`locate`, `query`, `queryE`, `queryN`, `queryEN`, `queryUnique`),
    and the gameplay systems `GridPositionSystem` and `TileDragSystem`.
    JavaScript `Map`s are modelled as insertion-ordered association lists
    (`set` replaces the existing entry in place, otherwise appends; `delete`
    removes the entry), numbers at integral values as `Int`, runtime
    `TypeError`s from force-unwrapping `undefined` and the thrown
    `ComponentNotRegistered` error as an `Except` result. -/

/-- Integer 2-D vector (positions, sizes, scroll offsets). -/
structure Vector2 where
  x : Int
  y : Int
deriving DecidableEq, Repr

/-- Axis-aligned rectangle, as in the source `Rectangle` class. -/
structure Rectangle where
  x : Int
  y : Int
  w : Int
  h : Int
deriving DecidableEq, Repr

/-- Source `Rectangle.from(origin, size)`. -/
def Rectangle.from_ (origin size : Vector2) : Rectangle :=
  ⟨origin.x, origin.y, size.x, size.y⟩

/-- Source `Rectangle.contains`: boundary-exclusive point containment. -/
def Rectangle.contains (r : Rectangle) (point : Vector2) : Bool :=
  decide (point.x < r.x + r.w) && decide (point.y < r.y + r.h) &&
  decide (point.x > r.x) && decide (point.y > r.y)

/-- Entity handles are numbers in the source (`type EntityId = number`). -/
abbrev EntityId := Nat

/-- The component variants of the source, as a closed sum.  Browser handles
    (`HTMLImageElement`, canvas contexts) are opaque to the core logic and
    are modelled as plain data (`sprite` keeps the asset name; `canvas` keeps
    no data). -/
inductive Component where
  | position (position : Vector2)
  | size (size : Vector2)
  | displayFrame (innerPosition : Vector2)
  | gridPosition (column line : Int)
  | displayPlane (plane : EntityId)
  | sprite (image : String)
  | label (label : String)
  | dragged
  | draggable
  | canvas
  | playerProperties (playerName : String)
deriving DecidableEq, Repr

/-- The registry key of a component: `component.constructor.name` in the
    source. -/
def Component.ctorName : Component → String
  | .position _ => "Position"
  | .size _ => "Size"
  | .displayFrame _ => "DisplayFrame"
  | .gridPosition _ _ => "GridPosition"
  | .displayPlane _ => "DisplayPlane"
  | .sprite _ => "Sprite"
  | .label _ => "Label"
  | .dragged => "Dragged"
  | .draggable => "Draggable"
  | .canvas => "Canvas"
  | .playerProperties _ => "PlayerProperties"

/-- Field access `c.position` on a value that should be a `Position`;
    `none` models the `undefined` dereference that raises a `TypeError`. -/
def Component.positionVal? : Component → Option Vector2
  | .position p => some p
  | _ => none

/-- Field access `c.innerPosition` on a value that should be a
    `DisplayFrame`. -/
def Component.innerPosition? : Component → Option Vector2
  | .displayFrame p => some p
  | _ => none

/-- Field access `c.plane` on a value that should be a `DisplayPlane`. -/
def Component.planeVal? : Component → Option EntityId
  | .displayPlane e => some e
  | _ => none

/-- Field access `c.playerName` on a value that should be a
    `PlayerProperties`. -/
def Component.playerName? : Component → Option String
  | .playerProperties n => some n
  | _ => none

/-- Lookup in an insertion-ordered association list (JS `Map.get`). -/
def mapGet {κ α : Type} [DecidableEq κ] : List (κ × α) → κ → Option α
  | [], _ => none
  | p :: t, k => if p.1 = k then some p.2 else mapGet t k

/-- Key-presence test (JS `Map.has`). -/
def mapHas {κ α : Type} [DecidableEq κ] : List (κ × α) → κ → Bool
  | [], _ => false
  | p :: t, k => decide (p.1 = k) || mapHas t k

/-- Insertion (JS `Map.set`): replaces the entry for an existing key in
    place, otherwise appends at the end, preserving iteration order. -/
def mapSet {κ α : Type} [DecidableEq κ] : List (κ × α) → κ → α → List (κ × α)
  | [], k, v => [(k, v)]
  | p :: t, k, v => if p.1 = k then (k, v) :: t else p :: mapSet t k v

/-- Removal (JS `Map.delete`). -/
def mapDelete {κ α : Type} [DecidableEq κ] : List (κ × α) → κ → List (κ × α)
  | [], _ => []
  | p :: t, k => if p.1 = k then mapDelete t k else p :: mapDelete t k

/-- One per-type component table: `Map<EntityId, Component>`. -/
abbrev Table := List (Nat × Component)

/-- The source `World`: `registry: Map<string, Map<number, Component>>`
    plus the `lastId` counter. -/
structure World where
  registry : List (String × Table)
  lastId : Nat
deriving DecidableEq, Repr

/-- A fresh `new World()`. -/
def World.init : World := ⟨[], 0⟩

/-- Source `World.register`: lazily creates the per-type table, then
    inserts/overwrites the entry for the entity. -/
def World.register (w : World) (entityId : EntityId) (c : Component) : World :=
  { w with
    registry :=
      mapSet w.registry c.ctorName
        (mapSet ((mapGet w.registry c.ctorName).getD []) entityId c) }

/-- Source `World.rescind`: lazily creates the per-type table (even when
    absent), then deletes the entry for the entity. -/
def World.rescind (w : World) (entityId : EntityId) (componentName : String) : World :=
  { w with
    registry :=
      mapSet w.registry componentName
        (mapDelete ((mapGet w.registry componentName).getD []) entityId) }

/-- Source `World.entity`: allocates `++lastId` and registers every supplied
    component under it. -/
def World.entity (w : World) (components : List Component) : EntityId × World :=
  let entityId := w.lastId + 1
  (entityId, components.foldl (fun acc c => acc.register entityId c)
    { w with lastId := entityId })

/-- Source `World.locate`: `registry.get(type.name)?.get(id)`. -/
def World.locate (w : World) (id : EntityId) (typeName : String) : Option Component :=
  (mapGet w.registry typeName).bind (fun t => mapGet t id)

/-- Source `World.query`: all instances of a type, in table order. -/
def World.query (w : World) (typeName : String) : List Component :=
  match mapGet w.registry typeName with
  | some components => components.map Prod.snd
  | none => []

/-- Source `World.queryE`: all `(entityId, instance)` entries of a type. -/
def World.queryE (w : World) (typeName : String) : Table :=
  match mapGet w.registry typeName with
  | some components => components
  | none => []

/-- Source `World.queryN`: left join anchored on the primary type; each
    secondary slot is a point lookup on the same entity. -/
def World.queryN (w : World) (primaryType : String) (otherTypes : List String) :
    List (List (Option Component)) :=
  match mapGet w.registry primaryType with
  | none => []
  | some primaryComponents =>
    primaryComponents.map
      (fun p => some p.2 :: otherTypes.map (fun t => w.locate p.1 t))

/-- Source `World.queryEN`: entity-tagged variant of `queryN`. -/
def World.queryEN (w : World) (primaryType : String) (otherTypes : List String) :
    List (Nat × Component × List (Option Component)) :=
  match mapGet w.registry primaryType with
  | none => []
  | some primaryComponents =>
    primaryComponents.map
      (fun p => (p.1, p.2, otherTypes.map (fun t => w.locate p.1 t)))

/-- The two runtime failure modes of the core: the explicitly thrown
    `ComponentNotRegistered` error, and a `TypeError` from dereferencing an
    `undefined` produced by a force-unwrap (`!`). -/
inductive WorldError where
  | componentNotRegistered (typeName : String)
  | typeError
deriving DecidableEq, Repr

/-- Source `World.queryUnique`: throws `ComponentNotRegistered` only when
    the type table is absent; on a present table returns its first value —
    which is `undefined` (here `none`) when the table is empty. -/
def World.queryUnique (w : World) (typeName : String) :
    Except WorldError (Option Component) :=
  match mapGet w.registry typeName with
  | some components => .ok (components.head?.map Prod.snd)
  | none => .error (.componentNotRegistered typeName)

/-- Pointer event payload: client coordinates, per-axis movement delta,
    button mask. -/
structure MouseEvent where
  clientX : Int
  clientY : Int
  movementX : Int
  movementY : Int
  buttons : Nat
deriving DecidableEq, Repr

/-- One iteration of `GridPositionSystem.onFrame`'s loop body for a single
    `GridPosition` table entry: skip when `Dragged` is present, otherwise
    force-unwrap `Position` (a `TypeError` when absent) and overwrite it
    with `(column*64, line*64)`.  A non-`GridPosition` value in the
    `GridPosition` table is unreachable for registries built by `register`,
    which keys every table by the component's own constructor name. -/
def gridStep (w : World) (p : Nat × Component) : Except WorldError World :=
  match w.locate p.1 "Dragged" with
  | some _ => .ok w
  | none =>
    match w.locate p.1 "Position", p.2 with
    | some _, .gridPosition column line =>
      .ok (w.register p.1 (.position ⟨column * 64, line * 64⟩))
    | _, _ => .error .typeError

/-- The source `for … of world.query3(GridPosition, Position, Dragged)`
    loop: the generator pulls entries of the `GridPosition` table in order,
    performing the secondary lookups lazily against the current state. -/
def gridRun : World → Table → Except WorldError World
  | w, [] => .ok w
  | w, p :: l =>
    match gridStep w p with
    | .error e => .error e
    | .ok w₁ => gridRun w₁ l

/-- Source `GridPositionSystem.onFrame`. -/
def GridPositionSystem.onFrame (w : World) (_delta : Int) : Except WorldError World :=
  gridRun w (w.queryE "GridPosition")

/-- Source `TileDragSystem.screenPosition` (the body force-unwraps both the
    position component and the frame lookup; `none` models the resulting
    `TypeError`). -/
def TileDragSystem.screenPosition (frames : Table) (cPosition cPlane : Option Component) :
    Option Vector2 :=
  match cPosition.bind Component.positionVal? with
  | none => none
  | some pos =>
    match cPlane with
    | none => some pos
    | some cp =>
      match cp.planeVal?.bind (fun pl => (mapGet frames pl).bind Component.innerPosition?) with
      | none => none
      | some frameStart => some ⟨pos.x - frameStart.x, pos.y - frameStart.y⟩

/-- Source `CanvasSystem.screenPosition`: a verbatim copy of
    `TileDragSystem.screenPosition` in the source. -/
def CanvasSystem.screenPosition (frames : Table) (cPosition cPlane : Option Component) :
    Option Vector2 :=
  match cPosition.bind Component.positionVal? with
  | none => none
  | some pos =>
    match cPlane with
    | none => some pos
    | some cp =>
      match cp.planeVal?.bind (fun pl => (mapGet frames pl).bind Component.innerPosition?) with
      | none => none
      | some frameStart => some ⟨pos.x - frameStart.x, pos.y - frameStart.y⟩

/-- One iteration of `TileDragSystem.onMouseDown`'s loop body for a single
    `Draggable` table entry: hit-test the entity's 64×64 screen rectangle
    against the pointer and register `Dragged` on a hit. -/
def dragStep (frames : Table) (event : MouseEvent) (w : World) (p : Nat × Component) :
    Except WorldError World :=
  match TileDragSystem.screenPosition frames (w.locate p.1 "Position")
      (w.locate p.1 "DisplayPlane") with
  | none => .error .typeError
  | some position =>
    if (Rectangle.from_ position ⟨64, 64⟩).contains ⟨event.clientX, event.clientY⟩ then
      .ok (w.register p.1 .dragged)
    else
      .ok w

/-- The `for … of world.queryE3(Draggable, Position, DisplayPlane)` loop. -/
def dragRun (frames : Table) (event : MouseEvent) : World → Table → Except WorldError World
  | w, [] => .ok w
  | w, p :: l =>
    match dragStep frames event w p with
    | .error e => .error e
    | .ok w₁ => dragRun frames event w₁ l

/-- Source `TileDragSystem.onMouseDown`: snapshots the `DisplayFrame`
    table, then hit-tests every `Draggable` entity. -/
def TileDragSystem.onMouseDown (w : World) (event : MouseEvent) : Except WorldError World :=
  let frames := w.queryE "DisplayFrame"
  dragRun frames event w (w.queryE "Draggable")

/-- One iteration of `TileDragSystem.onMouseUp`'s loop body for a single
    `Dragged` table entry: force-unwrap `Position` and `GridPosition`
    (a `TypeError` when either is absent), snap the grid cell, rescind
    `Dragged`, then log — the log line dereferences `player.playerName`,
    a `TypeError` when `queryUnique` returned `undefined`. -/
def dropStep (player : Option Component) (w : World) (p : Nat × Component) :
    Except WorldError World :=
  match (w.locate p.1 "Position").bind Component.positionVal?,
      w.locate p.1 "GridPosition" with
  | some pos, some (.gridPosition _ _) =>
    let column := (pos.x + 32).fdiv 64
    let line := (pos.y + 32).fdiv 64
    let w₁ := (w.register p.1 (.gridPosition column line)).rescind p.1 "Dragged"
    match player.bind Component.playerName? with
    | some _ => .ok w₁
    | none => .error .typeError
  | _, _ => .error .typeError

/-- The `for … of world.queryE3(Dragged, Position, GridPosition)` loop. -/
def dropRun (player : Option Component) : World → Table → Except WorldError World
  | w, [] => .ok w
  | w, p :: l =>
    match dropStep player w p with
    | .error e => .error e
    | .ok w₁ => dropRun player w₁ l

/-- Source `TileDragSystem.onMouseUp`: resolves the unique
    `PlayerProperties` first (throwing `ComponentNotRegistered` when that
    table is absent), then snaps and releases every `Dragged` entity. -/
def TileDragSystem.onMouseUp (w : World) (_event : MouseEvent) : Except WorldError World :=
  match w.queryUnique "PlayerProperties" with
  | .error e => .error e
  | .ok player => dropRun player w (w.queryE "Dragged")

/-- Repeated `createEntity` calls: returns the ids in call order together
    with the final world. -/
def runEntities : World → List (List Component) → List Nat × World
  | w, [] => ([], w)
  | w, cs :: rest =>
    let r := w.entity cs
    let rr := runEntities r.2 rest
    (r.1 :: rr.1, rr.2)

section MapLemmas

variable {κ α : Type} [DecidableEq κ]

theorem mapGet_mapSet_self (t : List (κ × α)) (k : κ) (v : α) :
    mapGet (mapSet t k v) k = some v := by
  induction t with
  | nil => simp [mapSet, mapGet]
  | cons p t ih =>
    by_cases h : p.1 = k
    · simp [mapSet, mapGet, h]
    · simp [mapSet, mapGet, h, ih]

theorem mapGet_mapSet_ne (t : List (κ × α)) (k k' : κ) (v : α) (h : k' ≠ k) :
    mapGet (mapSet t k v) k' = mapGet t k' := by
  have hkk : ¬ k = k' := fun hh => h hh.symm
  induction t with
  | nil => simp [mapSet, mapGet, hkk]
  | cons p t ih =>
    by_cases hp : p.1 = k
    · have hp' : ¬ p.1 = k' := by rw [hp]; exact hkk
      simp [mapSet, mapGet, hp, hkk, hp']
    · by_cases hp' : p.1 = k'
      · simp [mapSet, mapGet, hp, hp', h]
      · simp [mapSet, mapGet, hp, hp', ih]

theorem mapSet_eq_self (t : List (κ × α)) (k : κ) (v : α) (h : mapGet t k = some v) :
    mapSet t k v = t := by
  induction t with
  | nil => simp [mapGet] at h
  | cons p t ih =>
    by_cases hp : p.1 = k
    · simp only [mapGet, if_pos hp] at h
      have hv : p.2 = v := Option.some.inj h
      have hpkv : (k, v) = p := by
        cases p
        cases hp
        cases hv
        rfl
      simp [mapSet, hp, hpkv]
    · simp only [mapGet, if_neg hp] at h
      simp [mapSet, hp, ih h]

theorem mapGet_mapDelete_self (t : List (κ × α)) (k : κ) :
    mapGet (mapDelete t k) k = none := by
  induction t with
  | nil => simp [mapDelete, mapGet]
  | cons p t ih =>
    by_cases hp : p.1 = k
    · simp [mapDelete, hp, ih]
    · simp [mapDelete, mapGet, hp, ih]

theorem mapGet_mapDelete_ne (t : List (κ × α)) (k k' : κ) (h : k' ≠ k) :
    mapGet (mapDelete t k) k' = mapGet t k' := by
  have hkk : ¬ k = k' := fun hh => h hh.symm
  induction t with
  | nil => simp [mapDelete]
  | cons p t ih =>
    by_cases hp : p.1 = k
    · have hp' : ¬ p.1 = k' := by rw [hp]; exact hkk
      simp [mapDelete, mapGet, hp, hp', hkk, ih]
    · simp [mapDelete, mapGet, hp, ih]

theorem mapDelete_eq_self (t : List (κ × α)) (k : κ) (h : mapGet t k = none) :
    mapDelete t k = t := by
  induction t with
  | nil => simp [mapDelete]
  | cons p t ih =>
    by_cases hp : p.1 = k
    · simp [mapGet, hp] at h
    · simp [mapGet, hp] at h
      simp [mapDelete, hp, ih h]

theorem mapGet_mem (t : List (κ × α)) (k : κ) (v : α) (h : mapGet t k = some v) :
    (k, v) ∈ t := by
  induction t with
  | nil => simp [mapGet] at h
  | cons p t ih =>
    by_cases hp : p.1 = k
    · simp only [mapGet, if_pos hp] at h
      have hv : p.2 = v := Option.some.inj h
      have hpkv : (k, v) = p := by
        cases p
        cases hp
        cases hv
        rfl
      rw [hpkv]
      exact List.mem_cons_self _ _
    · simp only [mapGet, if_neg hp] at h
      exact List.mem_cons_of_mem _ (ih h)

theorem mem_mapGet_of_nodup (t : List (κ × α)) (k : κ) (v : α)
    (hnd : (t.map Prod.fst).Nodup) (h : (k, v) ∈ t) : mapGet t k = some v := by
  induction t with
  | nil => simp at h
  | cons p t ih =>
    simp only [List.map_cons, List.nodup_cons] at hnd
    rcases List.mem_cons.mp h with h | h
    · simp [mapGet, ← h]
    · have hk : k ∈ t.map Prod.fst := List.mem_map.mpr ⟨(k, v), h, rfl⟩
      have hp : ¬ p.1 = k := fun hh => hnd.1 (hh ▸ hk)
      simp [mapGet, hp, ih hnd.2 h]

theorem keys_mapSet (t : List (κ × α)) (k : κ) (v : α) :
    (mapSet t k v).map Prod.fst =
      if mapHas t k then t.map Prod.fst else t.map Prod.fst ++ [k] := by
  induction t with
  | nil => simp [mapSet, mapHas]
  | cons p t ih =>
    by_cases hp : p.1 = k
    · simp [mapSet, mapHas, hp]
    · simp only [mapSet, mapHas, if_neg hp, List.map_cons, ih, decide_eq_true_eq]
      by_cases hh : mapHas t k
      · simp [hp, hh]
      · simp [hp, hh]

theorem mapHas_iff_mem_keys (t : List (κ × α)) (k : κ) :
    mapHas t k = true ↔ k ∈ t.map Prod.fst := by
  induction t with
  | nil => simp [mapHas]
  | cons p t ih =>
    simp only [mapHas, Bool.or_eq_true, decide_eq_true_eq, ih, List.map_cons, List.mem_cons]
    constructor
    · rintro (h | h)
      · exact Or.inl h.symm
      · exact Or.inr h
    · rintro (h | h)
      · exact Or.inl h.symm
      · exact Or.inr h

end MapLemmas

section WorldLemmas

theorem World.locate_register_ne (w : World) (e e' : EntityId) (c : Component)
    (T : String) (h : e ≠ e') :
    (w.register e' c).locate e T = w.locate e T := by
  simp only [World.register, World.locate]
  by_cases hT : T = c.ctorName
  · subst hT
    rw [mapGet_mapSet_self]
    cases hreg : mapGet w.registry c.ctorName with
    | none =>
      simp only [hreg, Option.getD_none, Option.some_bind, Option.none_bind]
      rw [mapGet_mapSet_ne _ _ _ _ h]
      rfl
    | some t =>
      simp only [hreg, Option.getD_some, Option.some_bind]
      exact mapGet_mapSet_ne _ _ _ _ h
  · rw [mapGet_mapSet_ne _ _ _ _ hT]

theorem World.locate_register_self (w : World) (e : EntityId) (c : Component) :
    (w.register e c).locate e c.ctorName = some c := by
  simp only [World.register, World.locate]
  rw [mapGet_mapSet_self]
  simp [mapGet_mapSet_self]

theorem World.locate_register_of_ne_ctor (w : World) (e e' : EntityId) (c : Component)
    (T : String) (h : T ≠ c.ctorName) :
    (w.register e' c).locate e T = w.locate e T := by
  simp only [World.register, World.locate]
  rw [mapGet_mapSet_ne _ _ _ _ h]

theorem World.register_eq_self (w : World) (e : EntityId) (c : Component)
    (h : w.locate e c.ctorName = some c) : w.register e c = w := by
  simp only [World.locate] at h
  cases hreg : mapGet w.registry c.ctorName with
  | none => rw [hreg] at h; simp at h
  | some t =>
    rw [hreg] at h
    simp only [Option.some_bind] at h
    simp only [World.register, hreg, Option.getD_some]
    rw [mapSet_eq_self _ _ _ h, mapSet_eq_self _ _ _ hreg]

theorem World.locate_rescind_self (w : World) (e : EntityId) (T : String) :
    (w.rescind e T).locate e T = none := by
  simp only [World.rescind, World.locate]
  rw [mapGet_mapSet_self]
  simp [mapGet_mapDelete_self]

theorem World.locate_rescind_ne (w : World) (e e' : EntityId) (T T' : String) (h : e ≠ e') :
    (w.rescind e' T).locate e T' = w.locate e T' := by
  simp only [World.rescind, World.locate]
  by_cases hT : T' = T
  · subst hT
    rw [mapGet_mapSet_self]
    cases hreg : mapGet w.registry T' with
    | none =>
      simp only [hreg, Option.getD_none, Option.some_bind, Option.none_bind]
      rfl
    | some t =>
      simp only [hreg, Option.getD_some, Option.some_bind]
      exact mapGet_mapDelete_ne _ _ _ h
  · rw [mapGet_mapSet_ne _ _ _ _ hT]

theorem World.locate_rescind_of_ne_name (w : World) (e e' : EntityId) (T T' : String)
    (h : T' ≠ T) : (w.rescind e' T).locate e T' = w.locate e T' := by
  simp only [World.rescind, World.locate]
  rw [mapGet_mapSet_ne _ _ _ _ h]

theorem World.registry_get_register_ne (w : World) (e : EntityId) (c : Component)
    (T : String) (h : T ≠ c.ctorName) :
    mapGet (w.register e c).registry T = mapGet w.registry T :=
  mapGet_mapSet_ne _ _ _ _ h

theorem World.registry_get_rescind_ne (w : World) (e : EntityId) (T T' : String)
    (h : T' ≠ T) :
    mapGet (w.rescind e T).registry T' = mapGet w.registry T' :=
  mapGet_mapSet_ne _ _ _ _ h

theorem World.lastId_register (w : World) (e : EntityId) (c : Component) :
    (w.register e c).lastId = w.lastId := rfl

theorem World.lastId_rescind (w : World) (e : EntityId) (T : String) :
    (w.rescind e T).lastId = w.lastId := rfl

end WorldLemmas

section GridSystemLemmas

theorem gridStep_ok_cases (w w₁ : World) (p : Nat × Component)
    (h : gridStep w p = .ok w₁) :
    (∃ d, w.locate p.1 "Dragged" = some d ∧ w₁ = w) ∨
    (w.locate p.1 "Dragged" = none ∧ (w.locate p.1 "Position").isSome ∧
      ∃ c r, p.2 = .gridPosition c r ∧
        w₁ = w.register p.1 (.position ⟨c * 64, r * 64⟩)) := by
  unfold gridStep at h
  split at h
  next d hd =>
    injection h with h
    exact Or.inl ⟨d, hd, h.symm⟩
  next hd =>
    split at h
    next x c r hp hval =>
      injection h with h
      exact Or.inr ⟨hd, by rw [hp]; rfl, c, r, hval, h.symm⟩
    next => exact Except.noConfusion h

theorem gridStep_locate_preserved (w w₁ : World) (p : Nat × Component)
    (h : gridStep w p = .ok w₁) (e : EntityId) (T : String) (hT : T ≠ "Position") :
    w₁.locate e T = w.locate e T := by
  rcases gridStep_ok_cases w w₁ p h with ⟨d, hd, rfl⟩ | ⟨hd, hp, c, r, hval, rfl⟩
  · rfl
  · exact World.locate_register_of_ne_ctor w e p.1 _ T hT

theorem gridStep_locate_ne_key (w w₁ : World) (p : Nat × Component)
    (h : gridStep w p = .ok w₁) (e : EntityId) (he : e ≠ p.1) (T : String) :
    w₁.locate e T = w.locate e T := by
  rcases gridStep_ok_cases w w₁ p h with ⟨d, hd, rfl⟩ | ⟨hd, hp, c, r, hval, rfl⟩
  · rfl
  · exact World.locate_register_ne w e p.1 _ T he

theorem gridStep_registry_grid (w w₁ : World) (p : Nat × Component)
    (h : gridStep w p = .ok w₁) :
    mapGet w₁.registry "GridPosition" = mapGet w.registry "GridPosition" := by
  rcases gridStep_ok_cases w w₁ p h with ⟨d, hd, rfl⟩ | ⟨hd, hp, c, r, hval, rfl⟩
  · rfl
  · exact World.registry_get_register_ne w p.1 _ "GridPosition"
      ((by decide : ("GridPosition" : String) ≠ "Position") : _)

theorem gridRun_locate_preserved (l : Table) (w w' : World)
    (h : gridRun w l = .ok w') (e : EntityId) (T : String) (hT : T ≠ "Position") :
    w'.locate e T = w.locate e T := by
  induction l generalizing w with
  | nil =>
    unfold gridRun at h
    injection h with h
    rw [h]
  | cons p l ih =>
    unfold gridRun at h
    split at h
    next => exact Except.noConfusion h
    next w₁ hstep =>
      rw [ih w₁ h, gridStep_locate_preserved w w₁ p hstep e T hT]

theorem gridRun_locate_ne_keys (l : Table) (w w' : World)
    (h : gridRun w l = .ok w') (e : EntityId) (he : e ∉ l.map Prod.fst) (T : String) :
    w'.locate e T = w.locate e T := by
  induction l generalizing w with
  | nil =>
    unfold gridRun at h
    injection h with h
    rw [h]
  | cons p l ih =>
    simp only [List.map_cons, List.mem_cons, not_or] at he
    unfold gridRun at h
    split at h
    next => exact Except.noConfusion h
    next w₁ hstep =>
      rw [ih w₁ h he.2, gridStep_locate_ne_key w w₁ p hstep e he.1 T]

theorem gridRun_registry_grid (l : Table) (w w' : World)
    (h : gridRun w l = .ok w') :
    mapGet w'.registry "GridPosition" = mapGet w.registry "GridPosition" := by
  induction l generalizing w with
  | nil =>
    unfold gridRun at h
    injection h with h
    rw [h]
  | cons p l ih =>
    unfold gridRun at h
    split at h
    next => exact Except.noConfusion h
    next w₁ hstep =>
      rw [ih w₁ h, gridStep_registry_grid w w₁ p hstep]

theorem gridRun_snaps (l : Table) (w w' : World)
    (h : gridRun w l = .ok w') (hnd : (l.map Prod.fst).Nodup)
    (e : EntityId) (c r : Int) (hmem : (e, Component.gridPosition c r) ∈ l)
    (hd : w.locate e "Dragged" = none) :
    w'.locate e "Position" = some (.position ⟨c * 64, r * 64⟩) := by
  induction l generalizing w with
  | nil => simp at hmem
  | cons p l ih =>
    simp only [List.map_cons, List.nodup_cons] at hnd
    unfold gridRun at h
    split at h
    next => exact Except.noConfusion h
    next w₁ hstep =>
      rcases List.mem_cons.mp hmem with hmem | hmem
      · have hkey : p.1 = e := by rw [← hmem]
        have hkey' : e ∉ l.map Prod.fst := by rw [← hkey]; exact hnd.1
        rw [gridRun_locate_ne_keys l w₁ w' h e hkey' "Position"]
        rcases gridStep_ok_cases w w₁ p hstep with ⟨d, hd', heq⟩ | ⟨hd', hp, c', r', hval, heq⟩
        · rw [hkey] at hd'
          rw [hd] at hd'
          exact Option.noConfusion hd'
        · have hval' : p.2 = Component.gridPosition c r := by rw [← hmem]
          rw [hval'] at hval
          injection hval with hc hr
          rw [heq, hkey, ← hc, ← hr]
          exact World.locate_register_self w e _
      · have hd₁ : w₁.locate e "Dragged" = none := by
          rw [gridStep_locate_preserved w w₁ p hstep e "Dragged" (by decide), hd]
        exact ih w₁ h hnd.2 hmem hd₁

theorem gridRun_dragged_position_fixed (l : Table) (w w' : World)
    (h : gridRun w l = .ok w') (e : EntityId) (d : Component)
    (hd : w.locate e "Dragged" = some d) :
    w'.locate e "Position" = w.locate e "Position" := by
  induction l generalizing w with
  | nil =>
    unfold gridRun at h
    injection h with h
    rw [h]
  | cons p l ih =>
    unfold gridRun at h
    split at h
    next => exact Except.noConfusion h
    next w₁ hstep =>
      have hd₁ : w₁.locate e "Dragged" = some d := by
        rw [gridStep_locate_preserved w w₁ p hstep e "Dragged" (by decide), hd]
      rw [ih w₁ h hd₁]
      rcases gridStep_ok_cases w w₁ p hstep with ⟨d', hd', rfl⟩ | ⟨hd', hp, c, r, hval, rfl⟩
      · rfl
      · have hne : e ≠ p.1 := by
          intro he
          rw [he, hd'] at hd
          exact Option.noConfusion hd
        exact World.locate_register_ne w e p.1 _ "Position" hne

theorem gridRun_entry_shape (l : Table) (w w' : World)
    (h : gridRun w l = .ok w') (p : Nat × Component) (hmem : p ∈ l)
    (hd : w.locate p.1 "Dragged" = none) :
    ∃ c r, p.2 = Component.gridPosition c r := by
  induction l generalizing w with
  | nil => simp at hmem
  | cons q l ih =>
    unfold gridRun at h
    split at h
    next => exact Except.noConfusion h
    next w₁ hstep =>
      rcases List.mem_cons.mp hmem with hmem | hmem
      · subst hmem
        rcases gridStep_ok_cases w w₁ p hstep with ⟨d, hd', heq⟩ | ⟨hd', hp, c, r, hval, heq⟩
        · rw [hd] at hd'
          exact Option.noConfusion hd'
        · exact ⟨c, r, hval⟩
      · have hd₁ : w₁.locate p.1 "Dragged" = none := by
          rw [gridStep_locate_preserved w w₁ q hstep p.1 "Dragged" (by decide), hd]
        exact ih w₁ h hmem hd₁

theorem gridRun_of_steps_id (l : Table) (w : World)
    (h : ∀ p ∈ l, gridStep w p = .ok w) : gridRun w l = .ok w := by
  induction l with
  | nil => rfl
  | cons p l ih =>
    unfold gridRun
    rw [h p (List.mem_cons_self p l)]
    exact ih (fun q hq => h q (List.mem_cons_of_mem p hq))

end GridSystemLemmas

section DropSystemLemmas

theorem dropStep_ok_cases (player : Option Component) (w w₁ : World) (p : Nat × Component)
    (h : dropStep player w p = .ok w₁) :
    ∃ pos c₀ r₀, (w.locate p.1 "Position").bind Component.positionVal? = some pos ∧
      w.locate p.1 "GridPosition" = some (.gridPosition c₀ r₀) ∧
      (player.bind Component.playerName?).isSome ∧
      w₁ = (w.register p.1
          (.gridPosition ((pos.x + 32).fdiv 64) ((pos.y + 32).fdiv 64))).rescind
        p.1 "Dragged" := by
  unfold dropStep at h
  split at h
  next pos c₀ r₀ hpos hgrid =>
    split at h
    next hplayer =>
      injection h with h
      exact ⟨pos, c₀, r₀, hpos, hgrid, by rw [hplayer]; rfl, h.symm⟩
    next => exact Except.noConfusion h
  next => exact Except.noConfusion h

theorem dropStep_position_preserved (player : Option Component) (w w₁ : World)
    (p : Nat × Component) (h : dropStep player w p = .ok w₁) (e : EntityId) :
    w₁.locate e "Position" = w.locate e "Position" := by
  rcases dropStep_ok_cases player w w₁ p h with ⟨pos, c₀, r₀, hpos, hgrid, hpl, rfl⟩
  rw [World.locate_rescind_of_ne_name _ e p.1 "Dragged" "Position" (by decide)]
  exact World.locate_register_of_ne_ctor w e p.1 _ "Position"
    ((by decide : ("Position" : String) ≠ "GridPosition") : _)

theorem dropStep_locate_ne_key (player : Option Component) (w w₁ : World)
    (p : Nat × Component) (h : dropStep player w p = .ok w₁) (e : EntityId)
    (he : e ≠ p.1) (T : String) : w₁.locate e T = w.locate e T := by
  rcases dropStep_ok_cases player w w₁ p h with ⟨pos, c₀, r₀, hpos, hgrid, hpl, rfl⟩
  rw [World.locate_rescind_ne _ e p.1 "Dragged" T he]
  exact World.locate_register_ne w e p.1 _ T he

theorem dropRun_position_preserved (player : Option Component) (l : Table) (w w' : World)
    (h : dropRun player w l = .ok w') (e : EntityId) :
    w'.locate e "Position" = w.locate e "Position" := by
  induction l generalizing w with
  | nil =>
    unfold dropRun at h
    injection h with h
    rw [h]
  | cons p l ih =>
    unfold dropRun at h
    split at h
    next => exact Except.noConfusion h
    next w₁ hstep =>
      rw [ih w₁ h, dropStep_position_preserved player w w₁ p hstep e]

theorem dropRun_locate_ne_keys (player : Option Component) (l : Table) (w w' : World)
    (h : dropRun player w l = .ok w') (e : EntityId) (he : e ∉ l.map Prod.fst)
    (T : String) : w'.locate e T = w.locate e T := by
  induction l generalizing w with
  | nil =>
    unfold dropRun at h
    injection h with h
    rw [h]
  | cons p l ih =>
    simp only [List.map_cons, List.mem_cons, not_or] at he
    unfold dropRun at h
    split at h
    next => exact Except.noConfusion h
    next w₁ hstep =>
      rw [ih w₁ h he.2, dropStep_locate_ne_key player w w₁ p hstep e he.1 T]

theorem dropRun_snaps (player : Option Component) (l : Table) (w w' : World)
    (h : dropRun player w l = .ok w') (hnd : (l.map Prod.fst).Nodup)
    (e : EntityId) (cd : Component) (hmem : (e, cd) ∈ l) (pos : Vector2)
    (hpos : w.locate e "Position" = some (.position pos)) :
    w'.locate e "GridPosition" =
      some (.gridPosition ((pos.x + 32).fdiv 64) ((pos.y + 32).fdiv 64)) ∧
    w'.locate e "Dragged" = none := by
  induction l generalizing w with
  | nil => simp at hmem
  | cons p l ih =>
    simp only [List.map_cons, List.nodup_cons] at hnd
    unfold dropRun at h
    split at h
    next => exact Except.noConfusion h
    next w₁ hstep =>
      rcases List.mem_cons.mp hmem with hmem | hmem
      · have hkey : p.1 = e := by rw [← hmem]
        have hkey' : e ∉ l.map Prod.fst := by rw [← hkey]; exact hnd.1
        rcases dropStep_ok_cases player w w₁ p hstep with
          ⟨pos', c₀, r₀, hpos', hgrid, hpl, heq⟩
        rw [hkey] at hpos'
        rw [hpos] at hpos'
        simp only [Option.some_bind, Component.positionVal?] at hpos'
        injection hpos' with hpos'
        constructor
        · rw [dropRun_locate_ne_keys player l w₁ w' h e hkey' "GridPosition", heq, hkey,
            World.locate_rescind_of_ne_name _ e e "Dragged" "GridPosition"
              ((by decide : ("GridPosition" : String) ≠ "Dragged") : _),
            hpos']
          exact World.locate_register_self w e _
        · rw [dropRun_locate_ne_keys player l w₁ w' h e hkey' "Dragged", heq, hkey]
          exact World.locate_rescind_self _ e "Dragged"
      · have hpos₁ : w₁.locate e "Position" = some (.position pos) := by
          rw [dropStep_position_preserved player w w₁ p hstep e, hpos]
        exact ih w₁ h hnd.2 hmem hpos₁

end DropSystemLemmas

section DragSystemLemmas

/-- The hit-test applied by `TileDragSystem.onMouseDown` to one entity: its
    64×64 screen rectangle, anchored at the resolved screen position,
    strictly contains the pointer. -/
def hitTest (frames : Table) (event : MouseEvent) (w : World) (e : EntityId) : Prop :=
  ∃ pos, TileDragSystem.screenPosition frames (w.locate e "Position")
      (w.locate e "DisplayPlane") = some pos ∧
    (Rectangle.from_ pos ⟨64, 64⟩).contains ⟨event.clientX, event.clientY⟩ = true

theorem dragStep_ok_cases (frames : Table) (event : MouseEvent) (w w₁ : World)
    (p : Nat × Component) (h : dragStep frames event w p = .ok w₁) :
    ∃ pos, TileDragSystem.screenPosition frames (w.locate p.1 "Position")
        (w.locate p.1 "DisplayPlane") = some pos ∧
      (((Rectangle.from_ pos ⟨64, 64⟩).contains ⟨event.clientX, event.clientY⟩ = true ∧
          w₁ = w.register p.1 .dragged) ∨
        ((Rectangle.from_ pos ⟨64, 64⟩).contains ⟨event.clientX, event.clientY⟩ = false ∧
          w₁ = w)) := by
  unfold dragStep at h
  split at h
  next => exact Except.noConfusion h
  next pos hpos =>
    split at h
    next hc =>
      injection h with h
      exact ⟨pos, hpos, Or.inl ⟨hc, h.symm⟩⟩
    next hc =>
      injection h with h
      exact ⟨pos, hpos, Or.inr ⟨Bool.eq_false_iff.mpr hc, h.symm⟩⟩

theorem dragStep_locate_preserved (frames : Table) (event : MouseEvent) (w w₁ : World)
    (p : Nat × Component) (h : dragStep frames event w p = .ok w₁) (e : EntityId)
    (T : String) (hT : T ≠ "Dragged") : w₁.locate e T = w.locate e T := by
  rcases dragStep_ok_cases frames event w w₁ p h with ⟨pos, hpos, ⟨hc, rfl⟩ | ⟨hc, rfl⟩⟩
  · exact World.locate_register_of_ne_ctor w e p.1 .dragged T hT
  · rfl

theorem dragStep_hitTest_preserved (frames : Table) (event : MouseEvent) (w w₁ : World)
    (p : Nat × Component) (h : dragStep frames event w p = .ok w₁) (e : EntityId) :
    hitTest frames event w₁ e ↔ hitTest frames event w e := by
  unfold hitTest
  rw [dragStep_locate_preserved frames event w w₁ p h e "Position" (by decide),
    dragStep_locate_preserved frames event w w₁ p h e "DisplayPlane" (by decide)]

theorem dragRun_dragged_iff (frames : Table) (event : MouseEvent) (l : Table)
    (w w' : World) (h : dragRun frames event w l = .ok w') (e : EntityId) :
    (w'.locate e "Dragged").isSome ↔
      ((w.locate e "Dragged").isSome ∨
        (e ∈ l.map Prod.fst ∧ hitTest frames event w e)) := by
  induction l generalizing w with
  | nil =>
    unfold dragRun at h
    injection h with h
    rw [h]
    simp
  | cons p l ih =>
    unfold dragRun at h
    split at h
    next => exact Except.noConfusion h
    next w₁ hstep =>
      have step_iff : (w₁.locate e "Dragged").isSome ↔
          ((w.locate e "Dragged").isSome ∨ (e = p.1 ∧ hitTest frames event w e)) := by
        rcases dragStep_ok_cases frames event w w₁ p hstep with
          ⟨pos, hpos, ⟨hc, rfl⟩ | ⟨hc, rfl⟩⟩
        · by_cases he : e = p.1
          · subst he
            have hself : (w.register p.1 Component.dragged).locate p.1 "Dragged" =
                some .dragged := World.locate_register_self w p.1 .dragged
            exact iff_of_true (by rw [hself]; rfl) (Or.inr ⟨rfl, pos, hpos, hc⟩)
          · rw [World.locate_register_ne w e p.1 .dragged "Dragged" he]
            simp [he]
        · by_cases he : e = p.1
          · subst he
            constructor
            · exact fun hh => Or.inl hh
            · rintro (hh | ⟨-, pos', hpos', hc'⟩)
              · exact hh
              · rw [hpos] at hpos'
                injection hpos' with hpos'
                rw [hpos'] at hc
                rw [hc'] at hc
                exact Bool.noConfusion hc
          · simp [he]
      have hhit : hitTest frames event w₁ e ↔ hitTest frames event w e :=
        dragStep_hitTest_preserved frames event w w₁ p hstep e
      rw [ih w₁ h, step_iff, hhit, List.map_cons]
      constructor
      · rintro ((hh | ⟨he, hhit'⟩) | ⟨he, hhit'⟩)
        · exact Or.inl hh
        · exact Or.inr ⟨List.mem_cons.mpr (Or.inl he), hhit'⟩
        · exact Or.inr ⟨List.mem_cons.mpr (Or.inr he), hhit'⟩
      · rintro (hh | ⟨he, hhit'⟩)
        · exact Or.inl (Or.inl hh)
        · rcases List.mem_cons.mp he with he' | he'
          · exact Or.inl (Or.inr ⟨he', hhit'⟩)
          · exact Or.inr ⟨he', hhit'⟩

end DragSystemLemmas

section EntityIdLemmas

theorem foldl_register_lastId (l : List Component) (eid : EntityId) (w : World) :
    (l.foldl (fun acc c => acc.register eid c) w).lastId = w.lastId := by
  induction l generalizing w with
  | nil => rfl
  | cons c l ih =>
    rw [List.foldl_cons, ih (w.register eid c)]
    rfl

theorem World.entity_lastId (w : World) (cs : List Component) :
    ((w.entity cs).2).lastId = w.lastId + 1 := by
  show (cs.foldl _ { w with lastId := w.lastId + 1 }).lastId = w.lastId + 1
  rw [foldl_register_lastId]

theorem runEntities_ids (batches : List (List Component)) (w : World) :
    (runEntities w batches).1 = List.range' (w.lastId + 1) batches.length := by
  induction batches generalizing w with
  | nil => rfl
  | cons cs rest ih =>
    show ((w.entity cs).1 :: (runEntities (w.entity cs).2 rest).1) =
      List.range' (w.lastId + 1) (rest.length + 1)
    rw [List.range'_succ, ih ((w.entity cs).2), World.entity_lastId]
    rfl

end EntityIdLemmas

/-- C1 (amended): `queryUnique` raises `ComponentNotRegistered` exactly when
    no type table for the requested type exists in the registry; when the
    table exists but is empty it returns an absent value without raising;
    and with exactly one registered instance it returns that instance. -/
theorem queryUnique_spec (w : World) (T : String) :
    ((∃ err, w.queryUnique T = .error err) ↔ mapGet w.registry T = none) ∧
    (∀ e c, mapGet w.registry T = some [(e, c)] → w.queryUnique T = .ok (some c)) := by
  constructor
  · constructor
    · rintro ⟨err, herr⟩
      unfold World.queryUnique at herr
      split at herr
      next => exact Except.noConfusion herr
      next hnone => exact hnone
    · intro hnone
      exact ⟨.componentNotRegistered T, by simp [World.queryUnique, hnone]⟩
  · intro e c hsome
    simp [World.queryUnique, hsome]

/-- C1 witness: a singleton table returns its unique instance. -/
theorem queryUnique_spec_witness :
    (World.init.register 5 (.position ⟨1, 2⟩)).queryUnique "Position" =
      .ok (some (.position ⟨1, 2⟩)) :=
  (queryUnique_spec (World.init.register 5 (.position ⟨1, 2⟩)) "Position").2 5 _ rfl

/-- C1 counterexample: after a `rescind` for a never-registered type the
    type table exists but is empty — zero instances — yet `queryUnique`
    returns an absent value instead of raising `ComponentNotRegistered`,
    refuting the claim that both zero-instance cases raise. -/
theorem queryUnique_empty_table_counterexample :
    mapGet (World.init.rescind 1 "Position").registry "Position" = some [] ∧
    (World.init.rescind 1 "Position").queryUnique "Position" = .ok none ∧
    World.init.queryUnique "Position" = .error (.componentNotRegistered "Position") :=
  ⟨rfl, rfl, rfl⟩

/-- C3: the N-way join yields one tuple per entry of the primary table, in
    table order, pairing the primary instance with a point lookup per
    secondary type (absent slots for missing secondaries); a missing
    primary table yields the empty sequence; and every entity possessing
    the primary type contributes its tuple. -/
theorem queryN_leftJoin_spec (w : World) (T : String) (us : List String) :
    (mapGet w.registry T = none → w.queryN T us = [] ∧ w.queryEN T us = []) ∧
    w.queryN T us =
      (w.queryE T).map (fun p => some p.2 :: us.map (fun u => w.locate p.1 u)) ∧
    w.queryEN T us =
      (w.queryE T).map (fun p => (p.1, p.2, us.map (fun u => w.locate p.1 u))) ∧
    (∀ e c, w.locate e T = some c →
      (some c :: us.map (fun u => w.locate e u)) ∈ w.queryN T us) := by
  refine ⟨?_, ?_, ?_, ?_⟩
  · intro h
    exact ⟨by simp [World.queryN, h], by simp [World.queryEN, h]⟩
  · cases h : mapGet w.registry T with
    | none => simp [World.queryN, World.queryE, h]
    | some t => simp [World.queryN, World.queryE, h]
  · cases h : mapGet w.registry T with
    | none => simp [World.queryEN, World.queryE, h]
    | some t => simp [World.queryEN, World.queryE, h]
  · intro e c hloc
    unfold World.locate at hloc
    cases h : mapGet w.registry T with
    | none =>
      rw [h] at hloc
      exact absurd hloc (by simp)
    | some t =>
      rw [h] at hloc
      simp only [Option.some_bind] at hloc
      simp only [World.queryN, h]
      exact List.mem_map.mpr ⟨(e, c), mapGet_mem t e c hloc, rfl⟩

/-- C3 witness: an entity with the primary but not the secondary yields a
    tuple with an absent slot; a world without the primary table yields the
    empty join. -/
theorem queryN_leftJoin_witness :
    ([some Component.draggable, none] ∈
      ((World.init.register 1 .draggable).register 2 (.position ⟨0, 0⟩)).queryN
        "Draggable" ["Position"]) ∧
    World.init.queryN "Draggable" ["Position"] = [] :=
  ⟨(queryN_leftJoin_spec ((World.init.register 1 .draggable).register 2 (.position ⟨0, 0⟩))
      "Draggable" ["Position"]).2.2.2 1 .draggable rfl,
   ((queryN_leftJoin_spec World.init "Draggable" ["Position"]).1 rfl).1⟩

/-- C6: `screenPosition` returns the raw position unchanged when no display
    plane is given, and subtracts the referenced frame's inner position
    component-wise when the plane's frame is in the table — for both the
    `CanvasSystem` and `TileDragSystem` copies of the helper. -/
theorem screenPosition_spec (frames : Table) (p f : Vector2) (plane : EntityId) :
    TileDragSystem.screenPosition frames (some (.position p)) none = some p ∧
    CanvasSystem.screenPosition frames (some (.position p)) none = some p ∧
    (mapGet frames plane = some (.displayFrame f) →
      TileDragSystem.screenPosition frames (some (.position p)) (some (.displayPlane plane)) =
        some ⟨p.x - f.x, p.y - f.y⟩) ∧
    (mapGet frames plane = some (.displayFrame f) →
      CanvasSystem.screenPosition frames (some (.position p)) (some (.displayPlane plane)) =
        some ⟨p.x - f.x, p.y - f.y⟩) := by
  refine ⟨rfl, rfl, ?_, ?_⟩ <;> intro h <;>
    simp [TileDragSystem.screenPosition, CanvasSystem.screenPosition,
      Component.positionVal?, Component.planeVal?, Component.innerPosition?, h]

/-- C6 witness: the spec's example — frame inner position (50,0), world
    position (100,0), screen position (50,0). -/
theorem screenPosition_witness :
    TileDragSystem.screenPosition [(1, .displayFrame ⟨50, 0⟩)]
      (some (.position ⟨100, 0⟩)) (some (.displayPlane 1)) = some ⟨50, 0⟩ :=
  (screenPosition_spec [(1, .displayFrame ⟨50, 0⟩)] ⟨100, 0⟩ ⟨50, 0⟩ 1).2.2.1 rfl

/-- C8: successive `createEntity` calls return the consecutive ids
    `lastId+1, lastId+2, …` — strictly increasing, never repeated, never
    zero — and `lastId` is preserved by `register`/`rescind` and bumped by
    exactly one per creation. -/
theorem createEntity_ids_spec (w : World) (batches : List (List Component)) :
    (runEntities w batches).1 = List.range' (w.lastId + 1) batches.length ∧
    List.Pairwise (· < ·) (runEntities w batches).1 ∧
    (runEntities w batches).1.Nodup ∧
    0 ∉ (runEntities w batches).1 ∧
    (∀ cs, (w.entity cs).1 = w.lastId + 1 ∧ ((w.entity cs).2).lastId = w.lastId + 1) ∧
    (∀ e c, (w.register e c).lastId = w.lastId) ∧
    (∀ e T, (w.rescind e T).lastId = w.lastId) := by
  refine ⟨runEntities_ids batches w, ?_, ?_, ?_,
    fun cs => ⟨rfl, World.entity_lastId w cs⟩, fun e c => rfl, fun e T => rfl⟩
  · rw [runEntities_ids]
    exact List.pairwise_lt_range' _ _
  · rw [runEntities_ids]
    exact List.nodup_range' _ _
  · rw [runEntities_ids]
    intro hmem
    have hb := List.mem_range'_1.mp hmem
    omega

/-- C9 (amended): `rescind` on a world whose type table exists but has no
    mapping for the entity is a strict no-op; and after any `rescind` the
    corresponding `locate` returns absent.  (When the type table does not
    exist at all, `rescind` creates an empty one — see the
    counterexample.) -/
theorem rescind_spec (w : World) (e : EntityId) (T : String) :
    (∀ t, mapGet w.registry T = some t → mapGet t e = none → w.rescind e T = w) ∧
    (w.rescind e T).locate e T = none := by
  constructor
  · intro t ht he
    simp only [World.rescind, ht, Option.getD_some]
    rw [mapDelete_eq_self t e he, mapSet_eq_self w.registry T t ht]
  · exact World.locate_rescind_self w e T

/-- C9 witness: a no-op `rescind` on an existing table without the entity,
    and `locate` returning absent after a real `rescind`. -/
theorem rescind_spec_witness :
    ((World.init.register 2 (.position ⟨1, 1⟩)).rescind 1 "Position" =
      World.init.register 2 (.position ⟨1, 1⟩)) ∧
    ((World.init.register 2 (.position ⟨1, 1⟩)).rescind 2 "Position").locate 2 "Position" =
      none :=
  ⟨(rescind_spec (World.init.register 2 (.position ⟨1, 1⟩)) 1 "Position").1
      [(2, .position ⟨1, 1⟩)] rfl rfl,
   (rescind_spec (World.init.register 2 (.position ⟨1, 1⟩)) 2 "Position").2⟩

/-- C9 counterexample: `rescind` for a type whose table does not exist is
    not a no-op — it creates an empty type table, observably changing
    `queryUnique`'s behaviour for that type. -/
theorem rescind_absent_table_counterexample :
    World.init.rescind 1 "Position" ≠ World.init ∧
    (World.init.rescind 1 "Position").queryUnique "Position" = .ok none ∧
    World.init.queryUnique "Position" = .error (.componentNotRegistered "Position") :=
  ⟨by decide, rfl, rfl⟩

/-- C10: on a world with no type table for `T`, `queryUnique` raises
    `ComponentNotRegistered`, but after any `rescind` for `T` the table
    exists (empty), and `queryUnique` then returns an absent value
    instead of raising — the error depends on whether `rescind` has ever
    touched the type, not only on whether instances exist. -/
theorem rescind_then_queryUnique_spec (w : World) (e : EntityId) (T : String)
    (h : mapGet w.registry T = none) :
    w.queryUnique T = .error (.componentNotRegistered T) ∧
    mapGet (w.rescind e T).registry T = some [] ∧
    (w.rescind e T).queryUnique T = .ok none := by
  have htab : mapGet (w.rescind e T).registry T = some [] := by
    have h2 : mapGet (w.rescind e T).registry T =
        some (mapDelete ((mapGet w.registry T).getD []) e) := mapGet_mapSet_self _ _ _
    rw [h2, h]
    rfl
  exact ⟨by simp [World.queryUnique, h], htab, by simp [World.queryUnique, htab]⟩

/-- C10 witness: concrete instance on the fresh world. -/
theorem rescind_then_queryUnique_witness :
    World.init.queryUnique "Dragged" = .error (.componentNotRegistered "Dragged") ∧
    mapGet (World.init.rescind 3 "Dragged").registry "Dragged" = some [] ∧
    (World.init.rescind 3 "Dragged").queryUnique "Dragged" = .ok none :=
  rescind_then_queryUnique_spec World.init 3 "Dragged" rfl

theorem count_keys_double_mapSet (t₀ : Table) (e : Nat) (c c' : Component)
    (hnd : (t₀.map Prod.fst).Nodup) :
    List.count e ((mapSet (mapSet t₀ e c) e c').map Prod.fst) = 1 := by
  have h1 : (mapSet t₀ e c).map Prod.fst =
      if mapHas t₀ e then t₀.map Prod.fst else t₀.map Prod.fst ++ [e] := keys_mapSet t₀ e c
  have hmem : e ∈ (mapSet t₀ e c).map Prod.fst := by
    rw [h1]
    by_cases hh : mapHas t₀ e
    · rw [if_pos hh]
      exact (mapHas_iff_mem_keys t₀ e).mp hh
    · rw [if_neg hh]
      exact List.mem_append.mpr (Or.inr (List.mem_singleton.mpr rfl))
  have h2 : (mapSet (mapSet t₀ e c) e c').map Prod.fst = (mapSet t₀ e c).map Prod.fst := by
    rw [keys_mapSet, if_pos ((mapHas_iff_mem_keys _ e).mpr hmem)]
  rw [h2, h1]
  by_cases hh : mapHas t₀ e
  · rw [if_pos hh]
    exact List.count_eq_one_of_mem hnd ((mapHas_iff_mem_keys t₀ e).mp hh)
  · rw [if_neg hh]
    rw [List.count_append,
      List.count_eq_zero_of_not_mem (fun hm => hh ((mapHas_iff_mem_keys t₀ e).mpr hm))]
    simp

/-- C7: `register` followed by `locate` for the same entity and type
    returns the just-registered instance; a second `register` of the same
    variant for the same entity overwrites — `locate` then returns the new
    instance and the entity-tagged query for that type holds exactly one
    entry for the entity. -/
theorem register_overwrite_spec (w : World) (e : EntityId) (c c' : Component)
    (hv : c'.ctorName = c.ctorName)
    (hnd : ((w.queryE c.ctorName).map Prod.fst).Nodup) :
    (w.register e c).locate e c.ctorName = some c ∧
    ((w.register e c).register e c').locate e c.ctorName = some c' ∧
    List.count e ((((w.register e c).register e c').queryE c.ctorName).map Prod.fst) = 1 := by
  refine ⟨World.locate_register_self w e c, ?_, ?_⟩
  · have h := World.locate_register_self (w.register e c) e c'
    rw [hv] at h
    exact h
  · have hnd₀ : (((mapGet w.registry c.ctorName).getD []).map Prod.fst).Nodup := by
      cases hh : mapGet w.registry c.ctorName with
      | none => simp
      | some t =>
        have hq : w.queryE c.ctorName = t := by simp [World.queryE, hh]
        rw [hq] at hnd
        simpa using hnd
    have hreg1 : mapGet (w.register e c).registry c.ctorName =
        some (mapSet ((mapGet w.registry c.ctorName).getD []) e c) :=
      mapGet_mapSet_self _ _ _
    have hreg2 : mapGet ((w.register e c).register e c').registry c.ctorName =
        some (mapSet (mapSet ((mapGet w.registry c.ctorName).getD []) e c) e c') := by
      show mapGet (mapSet (w.register e c).registry c'.ctorName
        (mapSet ((mapGet (w.register e c).registry c'.ctorName).getD []) e c')) c.ctorName = _
      rw [hv, hreg1, mapGet_mapSet_self]
      rfl
    have hq2 : ((w.register e c).register e c').queryE c.ctorName =
        mapSet (mapSet ((mapGet w.registry c.ctorName).getD []) e c) e c' := by
      simp [World.queryE, hreg2]
    rw [hq2]
    exact count_keys_double_mapSet _ e c c' hnd₀

/-- C7 witness: registering two labels for the same entity overwrites. -/
theorem register_overwrite_witness :
    (World.init.register 7 (.label "a")).locate 7 "Label" = some (.label "a") ∧
    ((World.init.register 7 (.label "a")).register 7 (.label "b")).locate 7 "Label" =
      some (.label "b") ∧
    List.count 7 ((((World.init.register 7 (.label "a")).register 7 (.label "b")).queryE
      "Label").map Prod.fst) = 1 :=
  register_overwrite_spec World.init 7 (.label "a") (.label "b") rfl (by decide)

/-- C4: after a successful `GridPositionSystem.onFrame`, every entity with
    a `GridPosition(c,r)` and a `Position` that is not `Dragged` has its
    `Position` overwritten with exactly `(c*64, r*64)`; entities carrying
    `Dragged` keep their `Position`; and a second frame tick is the
    identity on the resulting world. -/
theorem gridPositionSystem_onFrame_spec (w w' : World) (delta delta₂ : Int)
    (hok : GridPositionSystem.onFrame w delta = .ok w')
    (hnd : ((w.queryE "GridPosition").map Prod.fst).Nodup) :
    (∀ e c r, (e, Component.gridPosition c r) ∈ w.queryE "GridPosition" →
      w.locate e "Dragged" = none → (w.locate e "Position").isSome →
      w'.locate e "Position" = some (.position ⟨c * 64, r * 64⟩)) ∧
    (∀ e d, w.locate e "Dragged" = some d →
      w'.locate e "Position" = w.locate e "Position") ∧
    GridPositionSystem.onFrame w' delta₂ = .ok w' := by
  have hrun : gridRun w (w.queryE "GridPosition") = .ok w' := hok
  refine ⟨?_, ?_, ?_⟩
  · intro e c r hmem hd _
    exact gridRun_snaps (w.queryE "GridPosition") w w' hrun hnd e c r hmem hd
  · intro e d hd
    exact gridRun_dragged_position_fixed (w.queryE "GridPosition") w w' hrun e d hd
  · have htab : w'.queryE "GridPosition" = w.queryE "GridPosition" := by
      unfold World.queryE
      rw [gridRun_registry_grid (w.queryE "GridPosition") w w' hrun]
    show gridRun w' (w'.queryE "GridPosition") = .ok w'
    rw [htab]
    apply gridRun_of_steps_id
    intro p hp
    cases hd' : w'.locate p.1 "Dragged" with
    | some d => simp [gridStep, hd']
    | none =>
      have hdw : w.locate p.1 "Dragged" = none := by
        rw [← gridRun_locate_preserved (w.queryE "GridPosition") w w' hrun p.1 "Dragged"
          (by decide), hd']
      obtain ⟨c, r, hval⟩ := gridRun_entry_shape (w.queryE "GridPosition") w w' hrun p hp hdw
      have hpos : w'.locate p.1 "Position" = some (.position ⟨c * 64, r * 64⟩) := by
        apply gridRun_snaps (w.queryE "GridPosition") w w' hrun hnd p.1 c r _ hdw
        rw [← hval]
        exact hp
      unfold gridStep
      rw [hd', hpos, hval]
      show Except.ok (w'.register p.1 (.position ⟨c * 64, r * 64⟩)) = .ok w'
      rw [World.register_eq_self w' p.1 (Component.position ⟨c * 64, r * 64⟩) hpos]

/-- C4 witness: a tile at grid (2,3) is snapped to pixel (128,192) and a
    second tick leaves the world unchanged. -/
theorem gridPositionSystem_onFrame_witness :
    (⟨[("GridPosition", [(1, .gridPosition 2 3)]),
        ("Position", [(1, .position ⟨128, 192⟩)])], 0⟩ : World).locate 1 "Position" =
      some (.position ⟨128, 192⟩) ∧
    GridPositionSystem.onFrame
        (⟨[("GridPosition", [(1, .gridPosition 2 3)]),
          ("Position", [(1, .position ⟨128, 192⟩)])], 0⟩ : World) 0 =
      .ok (⟨[("GridPosition", [(1, .gridPosition 2 3)]),
        ("Position", [(1, .position ⟨128, 192⟩)])], 0⟩ : World) := by
  have h := gridPositionSystem_onFrame_spec
    ⟨[("GridPosition", [(1, .gridPosition 2 3)]), ("Position", [(1, .position ⟨0, 0⟩)])], 0⟩
    ⟨[("GridPosition", [(1, .gridPosition 2 3)]), ("Position", [(1, .position ⟨128, 192⟩)])], 0⟩
    0 0 rfl (by decide)
  exact ⟨h.1 1 2 3 (by decide) rfl rfl, h.2.2⟩

/-- C2 (amended): after a successful `TileDragSystem.onMouseUp`, every
    entity that carried `Dragged` together with `Position (x,y)` has its
    `GridPosition` set to `(⌊(x+32)/64⌋, ⌊(y+32)/64⌋)` and its `Dragged`
    rescinded; and when a `PlayerProperties` table exists (the handler
    resolves the acting player first) and no entity carries `Dragged`, the
    call is a no-op.  (Without a `PlayerProperties` table the call raises
    `ComponentNotRegistered` even when nothing is dragged — see the
    counterexample.) -/
theorem tileDragSystem_onMouseUp_spec (w : World) (event : MouseEvent) :
    (∀ w' e cd pos, TileDragSystem.onMouseUp w event = .ok w' →
      ((w.queryE "Dragged").map Prod.fst).Nodup →
      (e, cd) ∈ w.queryE "Dragged" →
      w.locate e "Position" = some (.position pos) →
      w'.locate e "GridPosition" =
        some (.gridPosition ((pos.x + 32).fdiv 64) ((pos.y + 32).fdiv 64)) ∧
      w'.locate e "Dragged" = none) ∧
    (∀ pt, mapGet w.registry "PlayerProperties" = some pt →
      w.queryE "Dragged" = [] → TileDragSystem.onMouseUp w event = .ok w) := by
  constructor
  · intro w' e cd pos hok hnd hmem hpos
    unfold TileDragSystem.onMouseUp at hok
    split at hok
    next => exact Except.noConfusion hok
    next player hplayer =>
      exact dropRun_snaps player (w.queryE "Dragged") w w' hok hnd e cd hmem pos hpos
  · intro pt hpt hempty
    unfold TileDragSystem.onMouseUp
    have hq : w.queryUnique "PlayerProperties" = .ok (pt.head?.map Prod.snd) := by
      simp [World.queryUnique, hpt]
    rw [hq, hempty]
    rfl

/-- C2 witness: a dragged tile at pixel (100,200) snaps to grid (2,3) and
    loses `Dragged`; a world with a player but nothing dragged is
    untouched. -/
theorem tileDragSystem_onMouseUp_witness :
    ((⟨[("Dragged", []), ("Position", [(1, Component.position ⟨100, 200⟩)]),
        ("GridPosition", [(1, Component.gridPosition 2 3)]),
        ("PlayerProperties", [(2, Component.playerProperties "player1")])], 2⟩ : World).locate
        1 "GridPosition" = some (Component.gridPosition 2 3) ∧
      (⟨[("Dragged", []), ("Position", [(1, Component.position ⟨100, 200⟩)]),
        ("GridPosition", [(1, Component.gridPosition 2 3)]),
        ("PlayerProperties", [(2, Component.playerProperties "player1")])], 2⟩ : World).locate
        1 "Dragged" = none) ∧
    TileDragSystem.onMouseUp
        (⟨[("PlayerProperties", [(2, Component.playerProperties "player1")])], 2⟩ : World)
        ⟨0, 0, 0, 0, 0⟩ =
      .ok ⟨[("PlayerProperties", [(2, Component.playerProperties "player1")])], 2⟩ := by
  constructor
  · have h := (tileDragSystem_onMouseUp_spec
      ⟨[("Dragged", [(1, .dragged)]), ("Position", [(1, .position ⟨100, 200⟩)]),
        ("GridPosition", [(1, .gridPosition 0 0)]),
        ("PlayerProperties", [(2, .playerProperties "player1")])], 2⟩
      ⟨0, 0, 0, 0, 0⟩).1
      ⟨[("Dragged", []), ("Position", [(1, .position ⟨100, 200⟩)]),
        ("GridPosition", [(1, .gridPosition 2 3)]),
        ("PlayerProperties", [(2, .playerProperties "player1")])], 2⟩
      1 .dragged ⟨100, 200⟩ rfl (by decide) (by decide) rfl
    exact ⟨h.1, h.2⟩
  · exact (tileDragSystem_onMouseUp_spec
      ⟨[("PlayerProperties", [(2, .playerProperties "player1")])], 2⟩ ⟨0, 0, 0, 0, 0⟩).2
      [(2, .playerProperties "player1")] rfl rfl

/-- C2 counterexample: on a world with no `PlayerProperties` table and no
    entity carrying `Dragged`, `onMouseUp` is not a no-op — it raises
    `ComponentNotRegistered("PlayerProperties")`, because the handler
    resolves the acting player before inspecting the `Dragged` table. -/
theorem onMouseUp_counterexample :
    World.init.queryE "Dragged" = [] ∧
    TileDragSystem.onMouseUp World.init ⟨0, 0, 0, 0, 0⟩ =
      .error (.componentNotRegistered "PlayerProperties") :=
  ⟨rfl, rfl⟩

/-- C5: after a successful `TileDragSystem.onMouseDown`, an entity carries
    `Dragged` exactly when it already carried it or it possesses
    `Draggable` (and, via the hit test, a `Position`) and its 64×64 screen
    rectangle strictly contains the pointer; the containment test is
    boundary-exclusive on all four sides, and every matching entity is
    flagged. -/
theorem tileDragSystem_onMouseDown_spec (w w' : World) (event : MouseEvent)
    (hok : TileDragSystem.onMouseDown w event = .ok w') :
    (∀ e, (w'.locate e "Dragged").isSome ↔
      ((w.locate e "Dragged").isSome ∨
        (e ∈ (w.queryE "Draggable").map Prod.fst ∧
          hitTest (w.queryE "DisplayFrame") event w e))) ∧
    (∀ x0 y0 px py : Int,
      (Rectangle.from_ ⟨x0, y0⟩ ⟨64, 64⟩).contains ⟨px, py⟩ = true ↔
        (x0 < px ∧ px < x0 + 64 ∧ y0 < py ∧ py < y0 + 64)) := by
  constructor
  · intro e
    exact dragRun_dragged_iff (w.queryE "DisplayFrame") event (w.queryE "Draggable") w w'
      hok e
  · intro x0 y0 px py
    simp only [Rectangle.contains, Rectangle.from_, Bool.and_eq_true, decide_eq_true_eq]
    omega

/-- C5 witness: a draggable tile at (10,10) under the pointer (40,40)
    receives `Dragged`. -/
theorem tileDragSystem_onMouseDown_witness :
    ((⟨[("Draggable", [(1, Component.draggable)]),
        ("Position", [(1, Component.position ⟨10, 10⟩)]),
        ("Dragged", [(1, Component.dragged)])], 1⟩ : World).locate 1 "Dragged").isSome =
      true := by
  have h := tileDragSystem_onMouseDown_spec
    ⟨[("Draggable", [(1, .draggable)]), ("Position", [(1, .position ⟨10, 10⟩)])], 1⟩
    ⟨[("Draggable", [(1, .draggable)]), ("Position", [(1, .position ⟨10, 10⟩)]),
      ("Dragged", [(1, .dragged)])], 1⟩
    ⟨40, 40, 0, 0, 0⟩ rfl
  exact (h.1 1).mpr (Or.inr ⟨by decide, ⟨10, 10⟩, rfl, by decide⟩)
